import Mathlib

/-!
Shallow embedding of the epics-tools `rcaget` core (src/src/types.rs,
src/src/common.rs, src/src/bin/rcaget.rs) and proofs of the spec's claims.

Modelling conventions:
* The external `epics_ca` channel-access library is a collaborator: each
  channel's observable behaviour (connect instant, negotiated field type and
  element count, and the outcome of each typed read pipeline
  `into_typed::<V>() ... get::<Time<V>>()`) is carried explicitly in a
  `ChannelData` record.
* Machine integers: `i16`/`i32` payloads are `Int`, `u8`/`u16` payloads are
  `Nat`.  No claim exercises overflow of the payloads themselves.
* `f32`/`f64` payloads enter the claims only through their variant tags; they
  are modelled as `Int` (an integral float), and Rust's `{:.5}` rendering is
  modelled on those integral values (`v.00000`), a faithful restriction that
  no claim inspects further.
* Rust panics (`unimplemented!()`, debug-profile arithmetic-overflow checks)
  are modelled as an explicit `panicked`/`Except.error` outcome, distinct
  from the program's own `UnifiedError` values.
* The tokio `select!` race in `wait_connect` is resolved by comparing the
  instant at which `join_all` of the connect futures completes (the maximum
  connect instant) with the sleep deadline; the exact-tie case is a scheduler
  race in the source and no claim depends on it.
* chrono's `Local`-timezone timestamp rendering (`Info::format_stamp`) is an
  external collaborator; it is passed in as an opaque function `rs` applied
  to the record's stored server timestamp (`RawValue::get_stamp`).
-/

namespace EpicsTools

/-- Server-supplied timestamp (seconds + nanoseconds past the EPICS epoch),
as carried by `epics_ca::types::EpicsTimeStamp`. -/
structure EpicsTimeStamp where
  secs : Nat
  nsec : Nat
deriving DecidableEq

/-- `epics_ca::request::Time<V>`: a decoded payload together with the
server-supplied timestamp. -/
structure Time (α : Type) where
  value : α
  stamp : EpicsTimeStamp
deriving DecidableEq

/-- src/src/types.rs `RawValue`: one variant per supported
(wire type, scalar|array) pair.  Payload types per the source:
`u8`, `i16`, `i32`, `EpicsEnum` (u16), `f32`, `f64`, `EpicsString`;
arrays are boxed slices of the same. -/
inductive RawValue
  -- Scalar
  | Char (v : Time Nat)
  | Short (v : Time Int)
  | Long (v : Time Int)
  | Enum (v : Time Nat)
  | Float (v : Time Int)
  | Double (v : Time Int)
  | String (v : Time String)
  -- Arrays
  | ShortArray (v : Time (List Int))
  | LongArray (v : Time (List Int))
  | FloatArray (v : Time (List Int))
  | DoubleArray (v : Time (List Int))
  | StringArray (v : Time (List String))
deriving DecidableEq

/-- Per-field rendering of a timestamp inside a Debug dump. -/
def stampRepr (st : EpicsTimeStamp) : String :=
  "EpicsTimeStamp secs: " ++ toString st.secs ++ ", nsec: " ++ toString st.nsec

/-- Approximation of Rust's `{:#?}` pretty-Debug rendering of `RawValue`
(variant name and payload).  The exact brace/field/indentation layout of the
derived Debug impl is not reproduced: every claim inspects only the fixed
placeholder text wrapped around this string, never this string itself. -/
def debugRepr : RawValue → String
  | .Char v => "Char(Time value: " ++ toString v.value ++ ", " ++ stampRepr v.stamp ++ ")"
  | .Short v => "Short(Time value: " ++ toString v.value ++ ", " ++ stampRepr v.stamp ++ ")"
  | .Long v => "Long(Time value: " ++ toString v.value ++ ", " ++ stampRepr v.stamp ++ ")"
  | .Enum v => "Enum(Time value: " ++ toString v.value ++ ", " ++ stampRepr v.stamp ++ ")"
  | .Float v => "Float(Time value: " ++ toString v.value ++ ", " ++ stampRepr v.stamp ++ ")"
  | .Double v => "Double(Time value: " ++ toString v.value ++ ", " ++ stampRepr v.stamp ++ ")"
  | .String v => "String(Time value: " ++ v.value ++ ", " ++ stampRepr v.stamp ++ ")"
  | .ShortArray v => "ShortArray(Time value: " ++ toString v.value ++ ", " ++ stampRepr v.stamp ++ ")"
  | .LongArray v => "LongArray(Time value: " ++ toString v.value ++ ", " ++ stampRepr v.stamp ++ ")"
  | .FloatArray v => "FloatArray(Time value: " ++ toString v.value ++ ", " ++ stampRepr v.stamp ++ ")"
  | .DoubleArray v => "DoubleArray(Time value: " ++ toString v.value ++ ", " ++ stampRepr v.stamp ++ ")"
  | .StringArray v => "StringArray(Time value: " ++ toString v.value ++ ", " ++ stampRepr v.stamp ++ ")"

/-- The catch-all message `format!("<formatting not implemented yet for {self:#?}>")`
shared by `format_scalar` and `format_array`. -/
def placeholderFor (v : RawValue) : String :=
  "<formatting not implemented yet for " ++ (debugRepr v ++ ">")

/-- src/src/types.rs `RawValue::get_stamp` (the `impl_get_stamp!` macro
expanded over all twelve variants).  Declared outside the `RawValue`
namespace so that `String`/`Time` in the signatures keep their usual
meaning next to the `RawValue.String` constructor. -/
def get_stamp : RawValue → EpicsTimeStamp
  | .Char v => v.stamp
  | .Short v => v.stamp
  | .Long v => v.stamp
  | .Float v => v.stamp
  | .Double v => v.stamp
  | .Enum v => v.stamp
  | .String v => v.stamp
  | .ShortArray v => v.stamp
  | .LongArray v => v.stamp
  | .FloatArray v => v.stamp
  | .DoubleArray v => v.stamp
  | .StringArray v => v.stamp

/-- Rust `format!("{:.5}", x)` restricted to the integral floats our model
carries: the integer followed by five zero decimals. -/
def fmt5 (i : Int) : String :=
  toString i ++ (".00000")

/-- src/src/types.rs `RawValue::format_scalar`.  Match arms in source order;
the source's `_` catch-all covers `Char` and all array variants. -/
def format_scalar : RawValue → String
  | .Short v => toString v.value
  | .Long v => toString v.value
  | .Float v => fmt5 v.value
  | .Double v => fmt5 v.value
  | .Enum v => toString v.value
  | .String v => v.value
  | other => placeholderFor other

/-- Rust's `Vec::join(" ")` / `[String]::join(" ")`. -/
def joinSpace : List String → String
  | [] => ""
  | [s] => s
  | s :: rest => s ++ (" " ++ joinSpace rest)

/-- The token list `rest` built by `RawValue::format_array` for a `LongArray`:
each element `to_string()`ed, then `"0"` pushed `padding - rest.len()` times. -/
def longArrayTokens (elems : List Int) (padding : Nat) : List String :=
  elems.map (fun d => toString d) ++ List.replicate (padding - elems.length) ("0")

/-- src/src/types.rs `RawValue::format_array`.  Only `LongArray` reaches the
inner generic `format_array`; every other variant returns the placeholder.
The inner function computes `padding - rest.len()` on `usize`: under the
default (debug) profile's overflow checks this subtraction panics when
`rest.len() > padding`, modelled as the `Except.error` outcome; otherwise the
tokens are joined with `" "`. -/
def format_array (rv : RawValue) (padding : Nat) : Except String String :=
  match rv with
  | .LongArray val =>
      if val.value.length ≤ padding then
        .ok (joinSpace (longArrayTokens val.value padding))
      else
        .error ("attempt to subtract with overflow")
  | other => .ok (placeholderFor other)

/-- src/src/types.rs `Info`: the Result Record pairing a PV name and element
count with its decoded value. -/
structure Info where
  name : String
  elements : Nat
  value : RawValue
deriving DecidableEq

/-- src/src/types.rs `Info::is_scalar`. -/
def Info.is_scalar (i : Info) : Bool :=
  i.elements == 1

/-- src/src/bin/rcaget.rs `Config`.  `wait_time` is an `f32` of seconds in
the source, converted once at the top of `run` by `(wait_time * 1000.0) as u64`;
we model the already-converted millisecond deadline, which is how every claim
refers to it.  The source names the flag `_asynchronous` because the
asynchronous branch of `run` is commented out. -/
structure Config where
  names : List String
  wait_time_ms : Nat
  asynchronous : Bool
  terse : Bool
  wide : Bool

/-- `epics_ca::Error`, opaque to the core (only wrapped and propagated). -/
structure CaErr where
  msg : String
deriving DecidableEq

/-- src/src/lib.rs `UnifiedError`. -/
inductive UnifiedError
  | CaError (e : CaErr)
  | Misc (s : String)
deriving DecidableEq

/-- Whether a PV name holds an embedded nul byte (the condition under which
`CString::new` fails). -/
def hasNul (name : String) : Bool :=
  name.data.any (fun c => c == Char.ofNat 0)

/-- Byte position of the first nul in a string, as reported by
`std::ffi::NulError` (UTF-8 byte offsets, accumulated via each preceding
character's encoded size). -/
def nulBytePos : List Char → Nat
  | [] => 0
  | c :: cs => if c == Char.ofNat 0 then 0 else c.utf8Size + nulBytePos cs

/-- `format!("{error}")` for the `NulError` returned by `CString::new`. -/
def nulErrorMsg (name : String) : String :=
  "nul byte found in provided data at position: " ++ toString (nulBytePos name.data)

/-- The per-name body of `get_channels` (src/src/common.rs):
`CString::new(name)` fails exactly when the name holds an embedded nul byte,
producing `UnifiedError::Misc(format!("{error}"))`; otherwise the external
`Channel::new` runs, its failure wrapped as `UnifiedError::CaError`.
`channelNew` is the external library's channel construction. -/
def openChannel {C : Type} (channelNew : String → Except CaErr C) (name : String) :
    Except UnifiedError C :=
  if hasNul name then
    .error (.Misc (nulErrorMsg name))
  else
    match channelNew name with
    | .ok c => .ok c
    | .error e => .error (.CaError e)

/-- The loop body of `get_channels`: the source maps `openChannel` over the
names and then `filter_map`s, pushing each error onto the local `errors`
vector and keeping each success, both in input order. -/
def getChannelsStep {C : Type} (channelNew : String → Except CaErr C)
    (acc : List C × List UnifiedError) (name : String) : List C × List UnifiedError :=
  match openChannel channelNew name with
  | .ok c => (acc.1 ++ [c], acc.2)
  | .error e => (acc.1, acc.2 ++ [e])

/-- src/src/common.rs `get_channels`, split into its observable pieces: the
vector of successfully-opened handles and the local `errors` vector the
source accumulates (and then drops). -/
def get_channels_core {C : Type} (channelNew : String → Except CaErr C)
    (names : List String) : List C × List UnifiedError :=
  names.foldl (getChannelsStep channelNew) ([], [])

/-- src/src/common.rs `get_channels`: the function's actual return value,
always `Ok(channels)` (per-name failures never abort the batch). -/
def get_channels {C : Type} (channelNew : String → Except CaErr C)
    (names : List String) : Except UnifiedError (List C) :=
  .ok (get_channels_core channelNew names).1

/-- src/src/common.rs `FieldId` (`epics_ca::types::FieldId`): the closed
wire-type enumeration. -/
inductive FieldId
  | Char
  | Short
  | Enum
  | Long
  | Float
  | Double
  | String
deriving DecidableEq

/-- The observable behaviour of one opened channel handle, as exposed by the
external `epics_ca` library: its name, the instant (ms) at which its
`connected()` future resolves (`none` = never within any deadline), the
negotiated element count and field type, and the outcome of each typed read
pipeline `into_typed::<V>() ... get::<Time<V>>()` (either step's failure
surfaces as one `CaErr`).  `grab_info` consults exactly one of the readers,
selected by `(field_type, element_count == 1)`. -/
structure ChannelData where
  name : String
  connectedAt : Option Nat
  elementCount : Nat
  fieldType : FieldId
  readChar : Except CaErr (Time Nat)
  readShort : Except CaErr (Time Int)
  readLong : Except CaErr (Time Int)
  readEnum : Except CaErr (Time Nat)
  readFloat : Except CaErr (Time Int)
  readDouble : Except CaErr (Time Int)
  readString : Except CaErr (Time String)
  readShortArray : Except CaErr (Time (List Int))
  readLongArray : Except CaErr (Time (List Int))
  readFloatArray : Except CaErr (Time (List Int))
  readDoubleArray : Except CaErr (Time (List Int))
  readStringArray : Except CaErr (Time (List String))

/-- `join_all` of the channels' `connected()` futures completes strictly
before the `sleep(timeout)` deadline exactly when every channel's connect
instant is strictly below the deadline. -/
def all_connected_before (channels : List ChannelData) (timeout : Nat) : Bool :=
  channels.all (fun ch =>
    match ch.connectedAt with
    | some t => t < timeout
    | none => false)

/-- src/src/common.rs `wait_connect`: `select!` between
`join_all(connected)` and `sleep(Duration::from_millis(timeout))`.  The race
is modelled by comparing completion instants; if the deadline fires first the
whole call fails with the timeout `Misc` error. -/
def wait_connect (channels : List ChannelData) (timeout : Nat) : Except UnifiedError Unit :=
  if all_connected_before channels timeout then
    .ok ()
  else
    .error (.Misc ("Channel connect timed out: some PV(s) not found."))

/-- Result of running a fallible-and-possibly-panicking piece of the program:
a normal value, a `UnifiedError` propagated with `?`, or a process-aborting
panic (`unimplemented!()`, overflow check), which is not a value of the
source's error type. -/
inductive Outcome (α : Type)
  | ok (a : α)
  | err (e : UnifiedError)
  | panicked (msg : String)
deriving DecidableEq

/-- The shared shape of the `get_value!`/`get_array!` macros: run the typed
read pipeline, wrap a success in the selected `RawValue` constructor (then
into an `Info`), and propagate a failure as `UnifiedError::CaError`. -/
def liftRead {α : Type} (r : Except CaErr α) (k : α → Info) : Outcome Info :=
  match r with
  | .ok v => .ok (k v)
  | .error e => .err (.CaError e)

/-- src/src/common.rs `grab_info` (also the loop body of the `grab_info` in
src/src/bin/rcaget.rs): dispatch on `(element_count == 1, field_type)`, with
match arms in source order.  The array match has no `Char`/`Enum` arms; its
`_` arm is `unimplemented!()`, a process-aborting panic with message
`"not implemented"`. -/
def grab_info (ch : ChannelData) : Outcome Info :=
  let mk := fun (rv : RawValue) => Info.mk ch.name ch.elementCount rv
  if ch.elementCount == 1 then
    match ch.fieldType with
    | .Short => liftRead ch.readShort (fun v => mk (.Short v))
    | .Float => liftRead ch.readFloat (fun v => mk (.Float v))
    | .Enum => liftRead ch.readEnum (fun v => mk (.Enum v))
    | .Char => liftRead ch.readChar (fun v => mk (.Char v))
    | .Long => liftRead ch.readLong (fun v => mk (.Long v))
    | .Double => liftRead ch.readDouble (fun v => mk (.Double v))
    | .String => liftRead ch.readString (fun v => mk (.String v))
  else
    match ch.fieldType with
    | .Short => liftRead ch.readShortArray (fun v => mk (.ShortArray v))
    | .Float => liftRead ch.readFloatArray (fun v => mk (.FloatArray v))
    | .Long => liftRead ch.readLongArray (fun v => mk (.LongArray v))
    | .Double => liftRead ch.readDoubleArray (fun v => mk (.DoubleArray v))
    | .String => liftRead ch.readStringArray (fun v => mk (.StringArray v))
    | _ => .panicked ("not implemented")

/-- src/src/bin/rcaget.rs `grab_info` over the whole channel vector: a
sequential loop in input order whose first error (via `?`) or panic aborts
the remaining reads. -/
def grab_info_all : List ChannelData → Outcome (List Info)
  | [] => .ok []
  | ch :: rest =>
    match grab_info ch with
    | .ok i =>
      match grab_info_all rest with
      | .ok is => .ok (i :: is)
      | .err e => .err e
      | .panicked m => .panicked m
    | .err e => .err e
    | .panicked m => .panicked m

/-- Rust `format!("{:<30}", name)`: the name left-justified in a width-30
field (fill `' '` appended on the right; names of 30 or more characters are
emitted unchanged — width is a minimum). -/
def fmtWidth30 (s : String) : String :=
  s ++ String.mk (List.replicate (30 - s.length) ' ')

/-- The value component pushed last by `print_formatted`: `format_scalar`
for a scalar record, `format_array(elements)` (which may panic) otherwise. -/
def valueToken (info : Info) : Except String String :=
  if info.is_scalar then .ok (format_scalar info.value) else format_array info.value info.elements

/-- The `components` vector built by src/src/bin/rcaget.rs `print_formatted`,
in push order: the (conditionally padded) name unless `terse`; the rendered
timestamp if `wide` (chrono `Local` rendering `rs` applied to the record's
stored stamp, modelling `Info::format_stamp`); the declared element count for
an array record; and the value itself. -/
def line_components (rs : EpicsTimeStamp → String) (info : Info) (cfg : Config) :
    Except String (List String) :=
  match valueToken info with
  | .error e => .error e
  | .ok vtok =>
    .ok ((if cfg.terse then [] else
            [if info.is_scalar then fmtWidth30 info.name else info.name])
         ++ (if cfg.wide then [rs (get_stamp info.value)] else [])
         ++ (if info.is_scalar then [] else [toString info.elements])
         ++ [vtok])

/-- src/src/bin/rcaget.rs `print_formatted`: the single line printed for one
record, `components.join(" ")`.  An `Except.error` is a propagated panic from
`format_array`'s overflow check. -/
def print_formatted (rs : EpicsTimeStamp → String) (info : Info) (cfg : Config) :
    Except String String :=
  (line_components rs info cfg).map joinSpace

/-- The print loop at the end of `run`, collecting the emitted lines in
order (a panic while formatting aborts the process). -/
def print_all (rs : EpicsTimeStamp → String) (cfg : Config) : List Info → Except String (List String)
  | [] => .ok []
  | i :: rest =>
    match print_formatted rs i cfg with
    | .ok line => (print_all rs cfg rest).map (fun ls => line :: ls)
    | .error m => .error m

/-- src/src/bin/rcaget.rs `run` (the synchronous, Policy A path — the
`config.asynchronous` branch is commented out in the source, so the flag is
never consulted): open the channels, wait for all of them under the shared
deadline, read them sequentially in input order, then print each record.
`channelNew` models `Channel::new` against the opened `Context`. -/
def run (rs : EpicsTimeStamp → String) (channelNew : String → Except CaErr ChannelData)
    (cfg : Config) : Outcome (List String) :=
  let channels := (get_channels_core channelNew cfg.names).1
  match wait_connect channels cfg.wait_time_ms with
  | .error e => .err e
  | .ok _ =>
    match grab_info_all channels with
    | .err e => .err e
    | .panicked m => .panicked m
    | .ok infos =>
      match print_all rs cfg infos with
      | .ok lines => .ok lines
      | .error m => .panicked m

/-- A tag naming each `RawValue` variant, used to compare the codec's
dispatch against the spec's table. -/
inductive VTag
  | char
  | short
  | long
  | enum
  | float
  | double
  | string
  | shortArray
  | longArray
  | floatArray
  | doubleArray
  | stringArray
deriving DecidableEq

/-- The variant a decoded value actually carries. -/
def variantTag : RawValue → VTag
  | .Char _ => .char
  | .Short _ => .short
  | .Long _ => .long
  | .Enum _ => .enum
  | .Float _ => .float
  | .Double _ => .double
  | .String _ => .string
  | .ShortArray _ => .shortArray
  | .LongArray _ => .longArray
  | .FloatArray _ => .floatArray
  | .DoubleArray _ => .doubleArray
  | .StringArray _ => .stringArray

/-- Follows the spec's words (the §4.3 dispatch table, keyed on
`(wire_type, elements == 1)`): the Decoded Value variant each supported pair
must produce, `none` for the two unsupported pairs (Char-array, Enum-array).
This is the spec-side definition that the code-side `grab_info` is compared
against. -/
def specDispatchTag : FieldId → Bool → Option VTag
  | .Char, true => some .char
  | .Short, true => some .short
  | .Enum, true => some .enum
  | .Long, true => some .long
  | .Float, true => some .float
  | .Double, true => some .double
  | .String, true => some .string
  | .Short, false => some .shortArray
  | .Long, false => some .longArray
  | .Float, false => some .floatArray
  | .Double, false => some .doubleArray
  | .String, false => some .stringArray
  | .Char, false => none
  | .Enum, false => none

/-- Whether one Policy B unit's channel wins its race against the shared
deadline (connects strictly before it). -/
def unitConnects (ch : ChannelData) (deadline : Nat) : Bool :=
  match ch.connectedAt with
  | some t => t < deadline
  | none => false

/-- Modelled from the spec: one Policy B unit of work (§4.2).  The
asynchronous implementation is absent from src/ — `Config` parses the flag
as `_asynchronous` and the branch of `run` that would select it is commented
out — so the unit is modelled from the spec's words: the unit races its own
`connected` signal against the one shared deadline; if the channel connects
first the unit performs the typed read and yields its Result Record; if the
deadline elapses first, or the read fails, the unit alone fails and its
error is discarded at the top level. -/
def unitResult (ch : ChannelData) (deadline : Nat) : Option Info :=
  if unitConnects ch deadline then
    match grab_info ch with
    | .ok i => some i
    | _ => none
  else
    none

/-- Whether a Policy B unit succeeds end to end (connects before the shared
deadline and its typed read succeeds). -/
def unitOk (ch : ChannelData) (deadline : Nat) : Bool :=
  (unitResult ch deadline).isSome

/-- Modelled from the spec: the Policy B orchestrator (§4.2) collects the
records of exactly the units that succeeded; units that time out are dropped
with their error discarded.  The result type (`List Info`, no error
component) is itself part of the model: no per-unit error can surface in the
caller's result sequence.  Completion order is scheduler-dependent in the
spec; the claims constrain only which records appear, so input order is
used. -/
def policyB_records (chans : List ChannelData) (deadline : Nat) : List Info :=
  chans.filterMap (fun ch => unitResult ch deadline)

/-- The condition under which claim C1 applies: the shared deadline elapses
strictly before every channel has signalled connected (some channel never
connects, or connects only after the deadline). -/
def deadline_first (channels : List ChannelData) (timeout : Nat) : Bool :=
  channels.any (fun ch =>
    match ch.connectedAt with
    | some t => timeout < t
    | none => true)

/-- Last element of a token list (own recursion, for easy induction). -/
def lastStr : List String → Option String
  | [] => none
  | [s] => some s
  | _ :: rest => lastStr rest

/-- Last character of a character list (own recursion, for easy induction). -/
def lastCh : List Char → Option Char
  | [] => none
  | [c] => some c
  | _ :: rest => lastCh rest

/-- The line `s` has trailing whitespace exactly when its last character is a
space (the only whitespace the formatter can ever place last). -/
def trailingSpace (s : String) : Bool :=
  lastCh s.data == some ' '

/-! ### Helper lemmas -/

theorem lastCh_append (a b : List Char) (hb : b ≠ []) : lastCh (a ++ b) = lastCh b := by
  induction a with
  | nil => rfl
  | cons c a ih =>
    cases hx : a ++ b with
    | nil => exact absurd (List.append_eq_nil.mp hx).2 hb
    | cons y ys =>
      have h1 : lastCh ((c :: a) ++ b) = lastCh (c :: y :: ys) := by
        rw [List.cons_append, hx]
      have h2 : lastCh (c :: y :: ys) = lastCh (y :: ys) := rfl
      rw [h1, h2, ← hx, ih]

theorem lastCh_ne_none (b : List Char) (hb : b ≠ []) : lastCh b ≠ none := by
  induction b with
  | nil => exact absurd rfl hb
  | cons c rest ih =>
    cases rest with
    | nil => simp [lastCh]
    | cons d r =>
      have h2 : lastCh (c :: d :: r) = lastCh (d :: r) := rfl
      rw [h2]
      exact ih (by simp)

theorem joinSpace_last (l : List String) (t : String) (hl : lastStr l = some t)
    (ht : t.data ≠ []) : lastCh (joinSpace l).data = lastCh t.data := by
  induction l with
  | nil => simp [lastStr] at hl
  | cons s rest ih =>
    cases rest with
    | nil =>
      have hs : s = t := Option.some.inj hl
      subst hs
      rfl
    | cons s' r =>
      have hl' : lastStr (s' :: r) = some t := hl
      have hIH := ih hl'
      have hne : (joinSpace (s' :: r)).data ≠ [] := by
        intro h0
        rw [h0] at hIH
        exact lastCh_ne_none t.data ht hIH.symm
      have hstep : joinSpace (s :: s' :: r) = s ++ (" " ++ joinSpace (s' :: r)) := rfl
      rw [hstep, String.data_append, String.data_append]
      rw [lastCh_append _ _ (by simp), lastCh_append _ _ hne, hIH]

theorem get_channels_go {C : Type} (channelNew : String → Except CaErr C) :
    ∀ (names : List String) (cs : List C) (es : List UnifiedError),
      names.foldl (getChannelsStep channelNew) (cs, es) =
        (cs ++ names.filterMap (fun n => (openChannel channelNew n).toOption),
         es ++ names.filterMap (fun n =>
           match openChannel channelNew n with
           | .ok _ => none
           | .error e => some e)) := by
  intro names
  induction names with
  | nil => intro cs es; simp
  | cons n rest ih =>
    intro cs es
    cases h : openChannel channelNew n with
    | ok c =>
      simp only [List.foldl_cons, getChannelsStep, h, List.filterMap_cons, Except.toOption, ih,
        List.append_assoc, List.singleton_append]
    | error e =>
      simp only [List.foldl_cons, getChannelsStep, h, List.filterMap_cons, Except.toOption, ih,
        List.append_assoc, List.singleton_append]

theorem length_filterMap_isSome {α β : Type} (f : α → Option β) (l : List α) :
    (l.filterMap f).length = l.countP (fun a => (f a).isSome) := by
  induction l with
  | nil => rfl
  | cons a rest ih =>
    cases h : f a <;> simp [List.filterMap_cons, h, List.countP_cons, ih]

theorem deadline_first_not_all (channels : List ChannelData) (timeout : Nat)
    (h : deadline_first channels timeout = true) :
    all_connected_before channels timeout = false := by
  rw [deadline_first, List.any_eq_true] at h
  obtain ⟨ch, hmem, hch⟩ := h
  rw [all_connected_before]
  apply Bool.eq_false_iff.mpr
  intro hall
  have hq := List.all_eq_true.mp hall ch hmem
  cases hc : ch.connectedAt with
  | none => rw [hc] at hq; exact Bool.false_ne_true hq
  | some t =>
    rw [hc] at hq hch
    have h1 : t < timeout := by exact_mod_cast of_decide_eq_true hq
    have h2 : timeout < t := by exact_mod_cast of_decide_eq_true hch
    omega

theorem liftRead_ok {α : Type} {r : Except CaErr α} {k : α → Info} {i : Info}
    (h : liftRead r k = .ok i) : ∃ v, r = .ok v ∧ i = k v := by
  cases r with
  | ok v =>
    simp only [liftRead, Outcome.ok.injEq] at h
    exact ⟨v, rfl, h.symm⟩
  | error e => simp [liftRead] at h

/-! ### Concrete fixtures used by witnesses and counterexamples -/

/-- A fixed server timestamp for concrete channels. -/
def st0 : EpicsTimeStamp := ⟨0, 0⟩

/-- A read pipeline the dispatched branch never consults. -/
def caUnused : CaErr := ⟨"unused"⟩

def noReadN : Except CaErr (Time Nat) := .error caUnused

def noReadI : Except CaErr (Time Int) := .error caUnused

def noReadS : Except CaErr (Time String) := .error caUnused

def noReadLI : Except CaErr (Time (List Int)) := .error caUnused

def noReadLS : Except CaErr (Time (List String)) := .error caUnused

/-- A concrete stand-in for the external chrono rendering. -/
def rs0 : EpicsTimeStamp → String := fun _ => ""

/-- A scalar Long channel that connects immediately and reads 7. -/
def chanOK : ChannelData :=
  ⟨"OK", some 0, 1, .Long, noReadN, noReadI, .ok ⟨7, st0⟩, noReadN, noReadI, noReadI, noReadS,
   noReadLI, noReadLI, noReadLI, noReadLI, noReadLS⟩

/-- A scalar Long channel whose `connected()` future never resolves. -/
def chanNever : ChannelData :=
  ⟨"SLOW", none, 1, .Long, noReadN, noReadI, .ok ⟨8, st0⟩, noReadN, noReadI, noReadI, noReadS,
   noReadLI, noReadLI, noReadLI, noReadLI, noReadLS⟩

/-- A scalar Short channel that connects immediately and reads 3. -/
def chanShort : ChannelData :=
  ⟨"S", some 0, 1, .Short, noReadN, .ok ⟨3, st0⟩, noReadI, noReadN, noReadI, noReadI, noReadS,
   noReadLI, noReadLI, noReadLI, noReadLI, noReadLS⟩

/-- The record `grab_info` produces for `chanShort`. -/
def infoShort : Info := ⟨"S", 1, .Short ⟨3, st0⟩⟩

/-- A connected Char channel negotiated to 2 elements (an unsupported array
decode). -/
def chanCharArr : ChannelData :=
  ⟨"CA", some 0, 2, .Char, noReadN, noReadI, noReadI, noReadN, noReadI, noReadI, noReadS,
   noReadLI, noReadLI, noReadLI, noReadLI, noReadLS⟩

/-- A connected Enum channel negotiated to 2 elements (an unsupported array
decode). -/
def chanEnumArr : ChannelData :=
  ⟨"EA", some 0, 2, .Enum, noReadN, noReadI, noReadI, noReadN, noReadI, noReadI, noReadS,
   noReadLI, noReadLI, noReadLI, noReadLI, noReadLS⟩

/-! ### Claim theorems -/

/-- C4 (evidence for a code bug): for a connected channel whose wire type is
Char (or Enum) and whose element count is greater than 1, `grab_info` does
not fail with a recoverable typed NotSupported error as the claim states: it
executes the array match's `unimplemented!()` arm, a process-aborting panic
with message `"not implemented"` — no partial Result Record is produced, but
no `UnifiedError` value is produced either. -/
theorem C4_unsupported_array_panics :
    grab_info chanCharArr = .panicked ("not implemented") ∧
    grab_info chanEnumArr = .panicked ("not implemented") :=
  ⟨rfl, rfl⟩

/-- A Short-array value with two elements, used against claim C5. -/
def shortArrVal : RawValue := .ShortArray ⟨[1, 2], st0⟩

/-- C5 (evidence for a code bug): a Short array is not rendered under the
Long-array textual contract (element-to-text, space-joined, zero-padded —
which for `[1, 2]` padded to 3 would be `"1 2 0"`): `format_array` returns
the `"<formatting not implemented yet ...>"` placeholder for every array
variant other than `LongArray`. -/
theorem C5_array_placeholder_not_contract :
    format_array shortArrVal 3 = .ok (placeholderFor shortArrVal) ∧
    placeholderFor shortArrVal ≠ "1 2 0" :=
  ⟨rfl, by decide⟩

/-- C6: for a Long-array value holding `elems` (k actual elements) formatted
with a declared element count `n ≥ k`, the token list built by
`format_array` has length exactly `n`, its last `n − k` tokens are each the
literal `"0"`, and the formatted string is exactly those tokens joined by
single spaces. -/
theorem C6_long_array_padding (elems : List Int) (st : EpicsTimeStamp) (n : Nat)
    (h : elems.length ≤ n) :
    (longArrayTokens elems n).length = n ∧
    (longArrayTokens elems n).drop elems.length =
      List.replicate (n - elems.length) ("0") ∧
    format_array (.LongArray ⟨elems, st⟩) n = .ok (joinSpace (longArrayTokens elems n)) := by
  refine ⟨?_, ?_, ?_⟩
  · rw [longArrayTokens, List.length_append, List.length_map, List.length_replicate]
    omega
  · have hlen : elems.length = (elems.map (fun d => toString d)).length :=
      (List.length_map _ _).symm
    rw [longArrayTokens, hlen, List.drop_left]
  · simp [format_array, h]

/-- Witness for C6 at `elems = [1, 2]`, `n = 4`. -/
theorem C6_long_array_padding_witness :
    (longArrayTokens [1, 2] 4).length = 4 ∧
    (longArrayTokens [1, 2] 4).drop (([1, 2] : List Int).length) =
      List.replicate (4 - ([1, 2] : List Int).length) ("0") ∧
    format_array (.LongArray ⟨[1, 2], st0⟩) 4 = .ok (joinSpace (longArrayTokens [1, 2] 4)) :=
  C6_long_array_padding [1, 2] st0 4 (by decide)

/-- C9: a scalar Char Result Record is not rendered as the character's
numeric text: `format_scalar` has no `Char` arm, so the value falls into the
catch-all branch and yields the placeholder string beginning
`"<formatting not implemented yet for"` — even though scalar Char is a
supported decode in the dispatch table. -/
theorem C9_char_scalar_placeholder (v : Time Nat) :
    format_scalar (.Char v) = placeholderFor (.Char v) ∧
    (∃ rest, format_scalar (.Char v) = "<formatting not implemented yet for " ++ rest) ∧
    specDispatchTag FieldId.Char true = some VTag.char :=
  ⟨rfl, ⟨debugRepr (.Char v) ++ ">", rfl⟩, rfl⟩

/-- C10: `format_array` on a Long array is total only when the padding count
is at least the number of actual elements: with `k > n` the `usize`
subtraction `padding - rest.len()` underflows and (under the overflow checks
the source is built with in the default profile) the operation panics
instead of returning a string. -/
theorem C10_format_array_underflow (elems : List Int) (st : EpicsTimeStamp) (n : Nat)
    (h : n < elems.length) :
    format_array (.LongArray ⟨elems, st⟩) n = .error ("attempt to subtract with overflow") := by
  simp only [format_array]
  rw [if_neg (by omega)]

/-- Witness for C10 at `elems = [1, 2]`, `n = 1`. -/
theorem C10_format_array_underflow_witness :
    format_array (.LongArray ⟨[1, 2], st0⟩) 1 = .error ("attempt to subtract with overflow") :=
  C10_format_array_underflow [1, 2] st0 1 (by decide)

/-- C1: under Policy A (the synchronous `run` path), if the shared deadline
elapses strictly before every opened channel has signalled connected, the
whole operation fails with the connect-timeout error
(`UnifiedError::Misc("Channel connect timed out: some PV(s) not found.")`)
and no Result Records are produced or printed — the error return carries no
lines, including none for the channels that did connect in time. -/
theorem C1_sync_timeout_all_or_nothing (rs : EpicsTimeStamp → String)
    (channelNew : String → Except CaErr ChannelData) (cfg : Config)
    (h : deadline_first ((get_channels_core channelNew cfg.names).1) cfg.wait_time_ms = true) :
    run rs channelNew cfg =
      .err (.Misc ("Channel connect timed out: some PV(s) not found.")) := by
  have hfalse := deadline_first_not_all _ _ h
  simp [run, wait_connect, hfalse]

/-- The concrete channel environment for the C1 witness: `"OK"` connects at
instant 0, every other name never connects. -/
def envC1 : String → Except CaErr ChannelData :=
  fun n => if n == "OK" then .ok chanOK else .ok chanNever

/-- Concrete configuration for the C1 witness: two names, 1000 ms deadline,
synchronous, name and value columns. -/
def cfgC1 : Config := ⟨["OK", "SLOW"], 1000, false, false, false⟩

/-- Witness for C1: one of the two channels connects immediately and the
other never does; the run nevertheless yields the timeout error and no
output at all. -/
theorem C1_sync_timeout_witness :
    deadline_first ((get_channels_core envC1 cfgC1.names).1) cfgC1.wait_time_ms = true ∧
    run rs0 envC1 cfgC1 =
      .err (.Misc ("Channel connect timed out: some PV(s) not found.")) :=
  ⟨by decide, C1_sync_timeout_all_or_nothing rs0 envC1 cfgC1 (by decide)⟩

/-- C2: under Policy B (modelled from the spec, the asynchronous
implementation being absent from src/), the orchestrator produces exactly
one Result Record per unit that connects before the shared deadline and
reads successfully — so with M successful units out of N, exactly M records
— while a unit whose channel loses the race against the deadline contributes
no record; the result sequence's type (`List Info`) carries no per-unit
error. -/
theorem C2_policyB_best_effort (chans : List ChannelData) (deadline : Nat) :
    (policyB_records chans deadline).length = chans.countP (fun ch => unitOk ch deadline) ∧
    ∀ ch, unitConnects ch deadline = false → unitResult ch deadline = none := by
  constructor
  · simpa [policyB_records, unitOk] using
      length_filterMap_isSome (fun ch => unitResult ch deadline) chans
  · intro ch hch
    simp [unitResult, hch]

/-- The concrete channel batch for the C2 witness. -/
def chansB : List ChannelData := [chanOK, chanNever]

/-- Witness for C2: of two channels, one connects and reads, one times out;
the record count equals the successful-unit count and the timed-out channel
yields no record. -/
theorem C2_policyB_witness :
    (policyB_records chansB 1000).length = chansB.countP (fun ch => unitOk ch 1000) ∧
    unitResult chanNever 1000 = none :=
  ⟨(C2_policyB_best_effort chansB 1000).1,
   (C2_policyB_best_effort chansB 1000).2 chanNever rfl⟩

/-- C3: decoding dispatches on `(wire type, elements == 1)`: whenever
`grab_info` produces a Result Record, the record's Decoded Value variant is
exactly the one the dispatch table assigns to that pair (each of the seven
wire types scalar when `elements == 1`; each of Short, Long, Float, Double,
String array when `elements > 1`), and the record carries the channel's name
and element count. -/
theorem C3_codec_dispatch (ch : ChannelData) (i : Info) (h : grab_info ch = .ok i) :
    specDispatchTag ch.fieldType (ch.elementCount == 1) = some (variantTag i.value) ∧
    i.name = ch.name ∧ i.elements = ch.elementCount := by
  cases hb : ch.elementCount == 1 <;> cases hft : ch.fieldType <;>
    simp only [grab_info, hb, hft, Bool.false_eq_true, if_false, if_true, ite_true,
      ite_false] at h <;>
    first
    | exact absurd h (by simp)
    | (obtain ⟨v, hr, hi⟩ := liftRead_ok h
       subst hi
       simp [specDispatchTag, variantTag, hb, hft])

/-- Witness for C3: a scalar Short channel reading 3 produces the scalar
Short variant, as the dispatch table requires. -/
theorem C3_codec_dispatch_witness :
    specDispatchTag chanShort.fieldType (chanShort.elementCount == 1) =
      some (variantTag infoShort.value) ∧
    infoShort.name = chanShort.name ∧ infoShort.elements = chanShort.elementCount :=
  C3_codec_dispatch chanShort infoShort rfl

/-- A scalar String record whose value text itself ends in a space. -/
def infoTrail : Info := ⟨"A", 1, .String ⟨"x ", st0⟩⟩

/-- A config with `terse = false`, `wide = false`. -/
def cfgPlain : Config := ⟨[], 1000, false, false, false⟩

/-- Whether a successfully formatted line ends with a space character. -/
def formattedLineTrailing (r : Except String String) : Bool :=
  match r with
  | .ok s => trailingSpace s
  | .error _ => false

/-- C7 counterexample: the claim's "the line has no trailing whitespace"
fails as a universal statement — for the scalar String record with value
`"x "` (and `terse = false`, `wide = false`) the formatted line reproduces
the value verbatim as its final token and therefore ends in a space. -/
theorem C7_trailing_space_counterexample :
    formattedLineTrailing (print_formatted rs0 infoTrail cfgPlain) = true := by
  decide

/-- C7 (amended): for every Result Record and Display Config with
`terse = false` whose line is produced (no array-padding panic), the line's
first token is the PV name — left-justified and padded to width 30 when the
record is scalar (the spec's §8 example `"A<padding>7"` fixes this reading
of "left-padded"), unpadded when it is an array; the line is exactly the
emitted tokens joined by single spaces with no separator appended after the
final token; consequently the line ends in whitespace only if the final
value token itself is empty or ends in whitespace (as in the counterexample),
and has no trailing whitespace otherwise. -/
theorem C7_formatted_line (rs : EpicsTimeStamp → String) (info : Info) (cfg : Config)
    (comps : List String) (hterse : cfg.terse = false)
    (hcomps : line_components rs info cfg = .ok comps) :
    (∃ rest, comps = (if info.is_scalar then fmtWidth30 info.name else info.name) :: rest) ∧
    print_formatted rs info cfg = .ok (joinSpace comps) ∧
    (∀ t, lastStr comps = some t → t.data ≠ [] → lastCh t.data ≠ some ' ' →
      trailingSpace (joinSpace comps) = false) := by
  refine ⟨?_, ?_, ?_⟩
  · cases hv : valueToken info with
    | error e =>
      rw [line_components, hv] at hcomps
      simp at hcomps
    | ok vtok =>
      rw [line_components, hv] at hcomps
      have hc := Except.ok.inj hcomps
      rw [hterse] at hc
      refine ⟨(if cfg.wide then [rs (get_stamp info.value)] else []) ++
        ((if info.is_scalar then [] else [toString info.elements]) ++ [vtok]), ?_⟩
      rw [← hc]
      simp
  · simp only [print_formatted, hcomps, Except.map]
  · intro t hlast hne hch
    rw [trailingSpace, joinSpace_last comps t hlast hne]
    exact beq_eq_false_iff_ne.mpr hch

/-- A scalar Long record reading 42 under PV name `"B"`. -/
def infoLong : Info := ⟨"B", 1, .Long ⟨42, st0⟩⟩

/-- The component list `print_formatted` builds for `infoLong` under
`cfgPlain`. -/
def compsB : List String := [fmtWidth30 ("B"), "42"]

/-- Witness for C7 (amended): the scalar Long record prints as the padded
name joined to `"42"` and the line has no trailing whitespace. -/
theorem C7_formatted_line_witness :
    print_formatted rs0 infoLong cfgPlain = .ok (joinSpace compsB) ∧
    trailingSpace (joinSpace compsB) = false := by
  have h := C7_formatted_line rs0 infoLong cfgPlain compsB rfl rfl
  exact ⟨h.2.1, h.2.2 ("42") rfl (by decide) (by decide)⟩

/-- C8: the channel-set builder never aborts the batch — it returns `Ok` of
exactly the successfully-opened handles in input order with failed names
dropped (the `filterMap` characterization), and any name containing an
embedded nul byte fails its own open with the per-name `Misc` NameError
produced from `CString::new`'s `NulError`. -/
theorem C8_channel_builder {C : Type} (channelNew : String → Except CaErr C)
    (names : List String) :
    get_channels channelNew names =
      .ok (names.filterMap (fun n => (openChannel channelNew n).toOption)) ∧
    ∀ n, hasNul n = true → openChannel channelNew n = .error (.Misc (nulErrorMsg n)) := by
  constructor
  · simp only [get_channels, get_channels_core, get_channels_go]
    simp
  · intro n hn
    simp [openChannel, hn]

/-- A channel environment whose external opens always succeed. -/
def envAlwaysOK : String → Except CaErr ChannelData := fun _ => .ok chanOK

/-- Names for the C8 witness: one valid, one holding an embedded nul byte. -/
def namesC8 : List String := ["GOOD", "BA\x00D"]

/-- Witness for C8: the batch result is the order-preserving filterMap of
the per-name opens, and the nul-containing name fails with its per-name
NameError. -/
theorem C8_channel_builder_witness :
    get_channels envAlwaysOK namesC8 =
      .ok (namesC8.filterMap (fun n => (openChannel envAlwaysOK n).toOption)) ∧
    openChannel envAlwaysOK ("BA\x00D") = .error (.Misc (nulErrorMsg ("BA\x00D"))) := by
  have h := C8_channel_builder envAlwaysOK namesC8
  exact ⟨h.1, h.2 ("BA\x00D") (by decide)⟩

end EpicsTools
